import Mathlib

/-!
Shallow embedding of the task-manager CRUD service (schemas.py, models.py,
crud.py, routes.py) and proofs of the specification claims about it.

Modelling conventions:
 - timestamps are natural numbers (the code only compares and copies them);
 - the relational store is a list of rows in insertion order;
 - a unit of work is a function from the store to a result paired with the
   store after the operation; an injected commit outcome models
   persistence-layer failures (on failure the code rolls back, so the
   returned store is the pre-operation one, and the exception is re-raised);
 - pydantic payloads are structures; an update payload distinguishes a field
   that is omitted, explicitly null, or set (model_dump exclude_unset).
-/

namespace TaskManager

/-- PriorityEnum from schemas.py / models.py. -/
inductive PriorityEnum
  | low
  | medium
  | high
  | urgent
  deriving DecidableEq, Repr

/-- StatusEnum from schemas.py / models.py. -/
inductive StatusEnum
  | todo
  | in_progress
  | completed
  | cancelled
  deriving DecidableEq, Repr

/-- A row of the tasks table (models.py Task). The columns title, priority
and status are NOT NULL; description and due_date are nullable. -/
structure Task where
  id : Nat
  title : String
  description : Option String
  priority : PriorityEnum
  status : StatusEnum
  created_at : Nat
  updated_at : Nat
  due_date : Option Nat
  deriving DecidableEq, Repr

/-- Structured validation errors raised by the pydantic schemas
(field name plus reason). -/
inductive ValidationError
  | titleTooShort
  | titleTooLong
  | titleEmpty
  | descriptionTooLong
  deriving DecidableEq, Repr

/-- Raw create payload (TaskCreate input, before validation); priority and
status default to medium and todo as in TaskBase. -/
structure TaskCreatePayload where
  title : String
  description : Option String := none
  priority : PriorityEnum := PriorityEnum.medium
  status : StatusEnum := StatusEnum.todo
  due_date : Option Nat := none
  deriving DecidableEq, Repr

/-- Removal of the leading and trailing elements of a list satisfying a
predicate. -/
def stripEnds {α : Type} (p : α → Bool) (l : List α) : List α :=
  ((l.dropWhile p).reverse.dropWhile p).reverse

/-- Python str.strip(): removes leading and trailing whitespace. -/
def pyStrip (s : String) : String :=
  String.mk (stripEnds Char.isWhitespace s.data)

deriving instance DecidableEq for Except

/-- Whether a pydantic validation outcome is an acceptance. -/
def exceptAccepted {ε α : Type} : Except ε α → Bool
  | Except.ok _ => true
  | Except.error _ => false

/-- The pydantic length constraints on TaskBase.title
(min_length 3, max_length 200), checked on the raw value before the
field validator runs. -/
def checkTitleLength (v : String) : Except ValidationError String :=
  if v.length < 3 then Except.error ValidationError.titleTooShort
  else if v.length > 200 then Except.error ValidationError.titleTooLong
  else Except.ok v

/-- TaskBase.validate_title: rejects an empty or whitespace-only title and
returns the stripped title. Runs after the length constraints. -/
def validate_title (v : String) : Except ValidationError String :=
  if v = "" ∨ pyStrip v = "" then Except.error ValidationError.titleEmpty
  else Except.ok (pyStrip v)

/-- TaskBase.validate_description: strips a truthy value, passes None and
the empty string through unchanged. -/
def stripDescriptionValue (v : Option String) : Option String :=
  match v with
  | none => none
  | some s => if s = "" then some s else some (pyStrip s)

/-- Pydantic validation of a TaskCreate payload: length constraints, then
the title and description field validators. -/
def validateTaskCreate (p : TaskCreatePayload) :
    Except ValidationError TaskCreatePayload := do
  let t ← checkTitleLength p.title
  let t ← validate_title t
  let d ← match p.description with
    | none => pure (none : Option String)
    | some s =>
        if s.length > 1000 then throw ValidationError.descriptionTooLong
        else pure (stripDescriptionValue (some s))
  Except.ok { p with title := t, description := d }

/-- State of one optional field of an update payload: omitted from the
payload, explicitly set to null, or set to a value. -/
inductive Patch (α : Type)
  | unset
  | setNull
  | set (a : α)
  deriving DecidableEq, Repr

/-- Raw update payload (TaskUpdate input): every field optional, defaults
unset (pydantic fields_set tracks which fields the caller supplied). -/
structure TaskUpdatePayload where
  title : Patch String := Patch.unset
  description : Patch String := Patch.unset
  priority : Patch PriorityEnum := Patch.unset
  status : Patch StatusEnum := Patch.unset
  due_date : Patch Nat := Patch.unset
  deriving DecidableEq, Repr

/-- TaskUpdate.title constraints: min_length 3 and max_length 200 apply only
when a string is supplied; None passes. TaskUpdate declares no strip
validator, so the value is kept verbatim. -/
def checkUpdateTitle (v : Patch String) : Except ValidationError (Patch String) :=
  match v with
  | Patch.set s =>
      if s.length < 3 then Except.error ValidationError.titleTooShort
      else if s.length > 200 then Except.error ValidationError.titleTooLong
      else Except.ok (Patch.set s)
  | x => Except.ok x

/-- TaskUpdate.description constraint: max_length 1000 when supplied. -/
def checkUpdateDescription (v : Patch String) :
    Except ValidationError (Patch String) :=
  match v with
  | Patch.set s =>
      if s.length > 1000 then Except.error ValidationError.descriptionTooLong
      else Except.ok (Patch.set s)
  | x => Except.ok x

/-- Pydantic validation of a TaskUpdate payload: only length constraints,
no trimming and no emptiness check (TaskUpdate does not inherit the
TaskBase validators). -/
def validateTaskUpdate (p : TaskUpdatePayload) :
    Except ValidationError TaskUpdatePayload := do
  let t ← checkUpdateTitle p.title
  let d ← checkUpdateDescription p.description
  Except.ok { p with title := t, description := d }

/-- Persistence-layer exceptions surfaced at commit time. -/
inductive DBError
  | commitFailure
  | notNullViolation
  deriving DecidableEq, Repr

/-- crud.create_task: inserts a row built from the validated payload; the
store assigns the id and sets created_at and updated_at to the same
statement timestamp. On a commit failure the session is rolled back and
the exception re-raised, leaving the store unchanged. -/
def create_task (db : List Task) (p : TaskCreatePayload) (newId now : Nat)
    (commitOk : Bool) : Except DBError Task × List Task :=
  let row : Task :=
    { id := newId, title := p.title, description := p.description,
      priority := p.priority, status := p.status,
      created_at := now, updated_at := now, due_date := p.due_date }
  if commitOk then (Except.ok row, db ++ [row])
  else (Except.error DBError.commitFailure, db)

/-- crud.get_task_by_id: first row whose id column matches. -/
def get_task_by_id (db : List Task) (task_id : Nat) : Option Task :=
  db.find? (fun t => t.id == task_id)

/-- The optional status and priority filters of get_all_tasks and
get_tasks_count. -/
def matchesFilters (statusF : Option StatusEnum) (priorityF : Option PriorityEnum)
    (t : Task) : Bool :=
  (match statusF with
   | none => true
   | some s => t.status == s) &&
  (match priorityF with
   | none => true
   | some p => t.priority == p)

/-- Insertion step for ordering rows by created_at descending
(ORDER BY created_at DESC), stable on ties. -/
def insertByCreatedDesc (t : Task) : List Task → List Task
  | [] => [t]
  | h :: rest =>
      if t.created_at ≤ h.created_at then h :: insertByCreatedDesc t rest
      else t :: h :: rest

/-- ORDER BY created_at DESC over a list of rows. -/
def sortByCreatedDesc (l : List Task) : List Task :=
  l.foldr insertByCreatedDesc []

/-- crud.get_all_tasks: filter, order newest created_at first, then OFFSET
skip and LIMIT limit (none means no LIMIT clause). -/
def get_all_tasks (db : List Task) (skip : Nat) (limit : Option Nat)
    (statusF : Option StatusEnum) (priorityF : Option PriorityEnum) :
    List Task :=
  let q := sortByCreatedDesc (db.filter (matchesFilters statusF priorityF))
  let q := q.drop skip
  match limit with
  | none => q
  | some l => q.take l

/-- crud.get_tasks_count: SELECT COUNT of the rows matching the same
filters, ignoring pagination. -/
def get_tasks_count (db : List Task) (statusF : Option StatusEnum)
    (priorityF : Option PriorityEnum) : Nat :=
  (db.filter (matchesFilters statusF priorityF)).length

/-- True when the update payload explicitly nulls a NOT NULL column
(title, priority, status): the UPDATE then fails at commit with an
integrity error. -/
def notNullViolated (p : TaskUpdatePayload) : Bool :=
  (match p.title with | Patch.setNull => true | _ => false) ||
  (match p.priority with | Patch.setNull => true | _ => false) ||
  (match p.status with | Patch.setNull => true | _ => false)

/-- setattr on a NOT NULL column: an omitted field keeps the old value, a
set field takes the new one (the explicit-null case never commits and is
handled by notNullViolated). -/
def applyRequired {α : Type} (old : α) : Patch α → α
  | Patch.unset => old
  | Patch.setNull => old
  | Patch.set v => v

/-- setattr on a nullable column: omitted keeps the old value, explicit
null clears it, set replaces it. -/
def applyNullable {α : Type} (old : Option α) : Patch α → Option α
  | Patch.unset => old
  | Patch.setNull => none
  | Patch.set v => some v

/-- The row produced by crud.update_task setting only the fields present in
model_dump(exclude_unset=True), then refreshing updated_at. -/
def patchRow (t : Task) (p : TaskUpdatePayload) (now : Nat) : Task :=
  { t with
    title := applyRequired t.title p.title,
    description := applyNullable t.description p.description,
    priority := applyRequired t.priority p.priority,
    status := applyRequired t.status p.status,
    due_date := applyNullable t.due_date p.due_date,
    updated_at := now }

/-- crud.update_task: None when the id does not exist (returned before any
commit); otherwise applies the supplied fields and commits. A commit
failure (injected, or the NOT NULL integrity error from an explicitly
nulled required column) rolls the session back and re-raises, leaving the
store unchanged. -/
def update_task (db : List Task) (task_id : Nat) (p : TaskUpdatePayload)
    (now : Nat) (commitOk : Bool) :
    Except DBError (Option Task) × List Task :=
  match get_task_by_id db task_id with
  | none => (Except.ok none, db)
  | some t =>
      if notNullViolated p then (Except.error DBError.notNullViolation, db)
      else if commitOk then
        let t2 := patchRow t p now
        (Except.ok (some t2), db.map (fun u => if u.id == task_id then t2 else u))
      else (Except.error DBError.commitFailure, db)

/-- crud.delete_task: False when the id does not exist (no commit reached);
otherwise DELETE WHERE id = task_id and commit, True on success, rollback
and re-raise on a commit failure. -/
def delete_task (db : List Task) (task_id : Nat) (commitOk : Bool) :
    Except DBError Bool × List Task :=
  match get_task_by_id db task_id with
  | none => (Except.ok false, db)
  | some _ =>
      if commitOk then (Except.ok true, db.filter (fun t => !(t.id == task_id)))
      else (Except.error DBError.commitFailure, db)

/-- crud.get_overdue_tasks: rows with due_date strictly before now (a NULL
due_date never satisfies the comparison) and status neither completed nor
cancelled. -/
def get_overdue_tasks (db : List Task) (now : Nat) : List Task :=
  db.filter (fun t =>
    (match t.due_date with
     | some d => decide (d < now)
     | none => false) &&
    !(t.status == StatusEnum.completed) &&
    !(t.status == StatusEnum.cancelled))

/-- The payload TaskUpdate(status=StatusEnum.COMPLETED): only status is in
fields_set. -/
def completedPatch : TaskUpdatePayload :=
  { status := Patch.set StatusEnum.completed }

/-- crud.mark_task_as_completed: delegates to update_task with the
status-only payload. -/
def mark_task_as_completed (db : List Task) (task_id : Nat) (now : Nat)
    (commitOk : Bool) : Except DBError (Option Task) × List Task :=
  update_task db task_id completedPatch now commitOk

/-- Response body of GET /tasks (schemas.TaskList). -/
structure TaskList where
  tasks : List Task
  total : Nat
  page : Nat
  page_size : Nat
  deriving DecidableEq, Repr

/-- Outcome of an API endpoint: body, or an HTTP error status. -/
inductive ApiResult (α : Type)
  | ok (a : α)
  | httpError (code : Nat)
  deriving DecidableEq, Repr

/-- routes.get_tasks: query parameters validated by FastAPI
(skip with ge 0, limit with ge 1 and le 100, both Python ints), then the
list and count queries are run with the raw skip and limit, and page is
computed as skip floor-divided by limit, plus one. -/
def route_get_tasks (db : List Task) (skip limit : Int)
    (statusF : Option StatusEnum) (priorityF : Option PriorityEnum) :
    ApiResult TaskList :=
  if skip < 0 ∨ limit < 1 ∨ limit > 100 then ApiResult.httpError 422
  else
    ApiResult.ok
      { tasks := get_all_tasks db skip.toNat (some limit.toNat) statusF priorityF
        total := get_tasks_count db statusF priorityF
        page := skip.toNat / limit.toNat + 1
        page_size := limit.toNat }

/-- routes.delete_task: 200 with a message when the CRUD layer reports a
deletion, 404 when it reports the id absent, and a propagated persistence
exception reaches the generic 500 handler of main.py. -/
def route_delete_task (db : List Task) (task_id : Nat) (commitOk : Bool) :
    ApiResult String × List Task :=
  match delete_task db task_id commitOk with
  | (Except.ok true, db2) => (ApiResult.ok "deleted", db2)
  | (Except.ok false, db2) => (ApiResult.httpError 404, db2)
  | (Except.error _, db2) => (ApiResult.httpError 500, db2)

/-- A mutating operation of the service (the three write endpoints plus the
mark-completed convenience endpoint). -/
inductive Op
  | createOp (p : TaskCreatePayload) (newId : Nat)
  | updateOp (task_id : Nat) (p : TaskUpdatePayload)
  | deleteOp (task_id : Nat)
  | completeOp (task_id : Nat)
  deriving DecidableEq, Repr

/-- The store after one mutating operation executed at time now with the
given commit outcome. -/
def runOp (db : List Task) : Op → Nat → Bool → List Task
  | Op.createOp p newId, now, cok => (create_task db p newId now cok).2
  | Op.updateOp task_id p, now, cok => (update_task db task_id p now cok).2
  | Op.deleteOp task_id, _, cok => (delete_task db task_id cok).2
  | Op.completeOp task_id, now, cok => (mark_task_as_completed db task_id now cok).2

/-- The store after a sequence of mutating operations, each tagged with its
wall-clock time and commit outcome. -/
def runTrace (db : List Task) : List (Op × Nat × Bool) → List Task
  | [] => db
  | s :: rest => runTrace (runOp db s.1 s.2.1 s.2.2) rest

/-- The clock never runs backwards along a trace of operations. -/
def timesMonotone (tr : List (Op × Nat × Bool)) : Prop :=
  List.Pairwise (fun a b => a.2.1 ≤ b.2.1) tr

/-- The invariant of the claim: every row has updated_at at or after
created_at. -/
def stampsOrdered (db : List Task) : Prop :=
  ∀ t ∈ db, t.created_at ≤ t.updated_at

/-- All timestamps in the store are in the past of T. -/
def stampsLE (db : List Task) (T : Nat) : Prop :=
  ∀ t ∈ db, t.created_at ≤ T ∧ t.updated_at ≤ T

/-- A sample stored row, used to instantiate theorems on concrete inputs. -/
def sampleTask : Task :=
  { id := 1, title := "abc", description := some "d",
    priority := PriorityEnum.low, status := StatusEnum.todo,
    created_at := 4, updated_at := 4, due_date := some 9 }

/-- A second sample stored row with the schema defaults. -/
def sampleTask2 : Task :=
  { id := 1, title := "abc", description := none,
    priority := PriorityEnum.medium, status := StatusEnum.todo,
    created_at := 2, updated_at := 2, due_date := none }

/-- One length-preservation fact about the ORDER BY step. -/
theorem length_insertByCreatedDesc (t : Task) (l : List Task) :
    (insertByCreatedDesc t l).length = l.length + 1 := by
  induction l with
  | nil => rfl
  | cons h rest ih =>
      simp only [insertByCreatedDesc]
      split
      · simp [ih]
      · simp

/-- Sorting by created_at descending preserves the number of rows. -/
theorem length_sortByCreatedDesc (l : List Task) :
    (sortByCreatedDesc l).length = l.length := by
  induction l with
  | nil => rfl
  | cons h rest ih =>
      simp [sortByCreatedDesc, List.foldr] at ih ⊢
      rw [length_insertByCreatedDesc, ih]

/-- Membership in the sorted list is membership in the original list. -/
theorem mem_insertByCreatedDesc (t u : Task) (l : List Task) :
    u ∈ insertByCreatedDesc t l ↔ u = t ∨ u ∈ l := by
  induction l with
  | nil => simp [insertByCreatedDesc]
  | cons h rest ih =>
      simp only [insertByCreatedDesc]
      split
      · rw [List.mem_cons, ih, List.mem_cons]
        tauto
      · rw [List.mem_cons, List.mem_cons]

/-- Sorting by created_at descending neither adds nor drops rows. -/
theorem mem_sortByCreatedDesc (u : Task) (l : List Task) :
    u ∈ sortByCreatedDesc l ↔ u ∈ l := by
  induction l with
  | nil => simp [sortByCreatedDesc]
  | cons h rest ih =>
      simp only [sortByCreatedDesc, List.foldr] at ih ⊢
      rw [mem_insertByCreatedDesc]
      simp [ih]

/-- C3: for every store state and every status and priority filter, the
count query returns exactly the length of the list query run with the same
filters, OFFSET 0 and no LIMIT: count ignores pagination and agrees with
the unpaginated list. -/
theorem count_eq_length_of_unpaginated_list (db : List Task)
    (statusF : Option StatusEnum) (priorityF : Option PriorityEnum) :
    get_tasks_count db statusF priorityF =
      (get_all_tasks db 0 none statusF priorityF).length := by
  simp [get_tasks_count, get_all_tasks, length_sortByCreatedDesc]

/-- C4: for every store state and every value of now, the overdue query
returns exactly the rows of the store whose due_date is strictly before
now and whose status is neither completed nor cancelled; a row with no
due_date is never returned. -/
theorem overdue_tasks_characterization (db : List Task) (now : Nat) (t : Task) :
    t ∈ get_overdue_tasks db now ↔
      t ∈ db ∧ (∃ d, t.due_date = some d ∧ d < now) ∧
        t.status ≠ StatusEnum.completed ∧ t.status ≠ StatusEnum.cancelled := by
  cases hdd : t.due_date with
  | none =>
      simp [get_overdue_tasks, List.mem_filter, hdd]
  | some d =>
      simp only [get_overdue_tasks, List.mem_filter, hdd, Bool.and_eq_true,
        Bool.not_eq_true', beq_eq_false_iff_ne, ne_eq, decide_eq_true_eq,
        Option.some.injEq]
      constructor
      · rintro ⟨hmem, ⟨hlt, hs⟩, hc⟩
        exact ⟨hmem, ⟨d, rfl, hlt⟩, hs, hc⟩
      · rintro ⟨hmem, ⟨d2, hd2, hlt⟩, hs, hc⟩
        cases hd2
        exact ⟨hmem, ⟨hlt, hs⟩, hc⟩

/-- C5: for every list request accepted by the API layer (skip at least 0,
limit between 1 and 100), the response's page field is skip
floor-divided by limit, plus one, and the returned rows come from the raw
skip and limit only (the page value plays no part in query execution). -/
theorem page_is_advisory (db : List Task) (skip limit : Int)
    (statusF : Option StatusEnum) (priorityF : Option PriorityEnum)
    (hskip : 0 ≤ skip) (hlo : 1 ≤ limit) (hhi : limit ≤ 100) :
    route_get_tasks db skip limit statusF priorityF =
      ApiResult.ok
        { tasks := get_all_tasks db skip.toNat (some limit.toNat) statusF priorityF
          total := get_tasks_count db statusF priorityF
          page := skip.toNat / limit.toNat + 1
          page_size := limit.toNat } := by
  rw [route_get_tasks, if_neg]
  push_neg
  exact ⟨by omega, by omega, by omega⟩

/-- Witness for C5 at skip 5, limit 2 on the empty store: page is 3. -/
theorem page_is_advisory_witness :
    (0 : Int) ≤ 5 ∧ (1 : Int) ≤ 2 ∧ (2 : Int) ≤ 100 ∧
      route_get_tasks [] 5 2 none none =
        ApiResult.ok { tasks := [], total := 0, page := 3, page_size := 2 } := by
  refine ⟨by decide, by decide, by decide, ?_⟩
  rw [page_is_advisory [] 5 2 none none (by decide) (by decide) (by decide)]
  decide

/-- C6: the delete operation returns True exactly when a row with the given
id existed (and was removed); after a successful delete, a get of the same
id finds nothing; and the False outcome is a normal result that the API
layer turns into a 404 response, not an exception. -/
theorem delete_task_semantics (db : List Task) (task_id : Nat) :
    ((delete_task db task_id true).1 = Except.ok true ↔
        (get_task_by_id db task_id).isSome = true) ∧
    get_task_by_id (delete_task db task_id true).2 task_id = none ∧
    (route_delete_task db task_id true = (ApiResult.httpError 404, db) ↔
        get_task_by_id db task_id = none) := by
  cases h : get_task_by_id db task_id with
  | none =>
      refine ⟨?_, ?_, ?_⟩ <;> simp [delete_task, route_delete_task, h]
  | some t =>
      refine ⟨?_, ?_, ?_⟩
      · simp [delete_task, h]
      · have hd : (delete_task db task_id true).2 =
            db.filter (fun u => !(u.id == task_id)) := by
          simp [delete_task, h]
        rw [hd]
        simp only [get_task_by_id, List.find?_eq_none, List.mem_filter,
          Bool.and_eq_true, Bool.not_eq_true']
        intro x hx
        simp [hx.2]
      · simp [route_delete_task, delete_task, h]

/-- C2: a successful update writes exactly the fields present in the
payload (explicitly null counts as present) plus updated_at; every omitted
field of the updated row, and every row with a different id, is left equal
to its pre-update value. -/
theorem update_task_frame (db : List Task) (task_id : Nat)
    (p : TaskUpdatePayload) (now : Nat) (t : Task)
    (hfound : get_task_by_id db task_id = some t)
    (hnn : notNullViolated p = false) :
    (update_task db task_id p now true).1 = Except.ok (some (patchRow t p now)) ∧
    (patchRow t p now).id = t.id ∧
    (patchRow t p now).created_at = t.created_at ∧
    (patchRow t p now).updated_at = now ∧
    (p.title = Patch.unset → (patchRow t p now).title = t.title) ∧
    (∀ v, p.title = Patch.set v → (patchRow t p now).title = v) ∧
    (p.description = Patch.unset →
      (patchRow t p now).description = t.description) ∧
    (p.description = Patch.setNull → (patchRow t p now).description = none) ∧
    (∀ v, p.description = Patch.set v →
      (patchRow t p now).description = some v) ∧
    (p.priority = Patch.unset → (patchRow t p now).priority = t.priority) ∧
    (∀ v, p.priority = Patch.set v → (patchRow t p now).priority = v) ∧
    (p.status = Patch.unset → (patchRow t p now).status = t.status) ∧
    (∀ v, p.status = Patch.set v → (patchRow t p now).status = v) ∧
    (p.due_date = Patch.unset → (patchRow t p now).due_date = t.due_date) ∧
    (p.due_date = Patch.setNull → (patchRow t p now).due_date = none) ∧
    (∀ v, p.due_date = Patch.set v → (patchRow t p now).due_date = some v) ∧
    (∀ u ∈ db, u.id ≠ task_id → u ∈ (update_task db task_id p now true).2) := by
  refine ⟨by simp [update_task, hfound, hnn], rfl, rfl, rfl,
    fun h => by simp [patchRow, h, applyRequired],
    fun v h => by simp [patchRow, h, applyRequired],
    fun h => by simp [patchRow, h, applyNullable],
    fun h => by simp [patchRow, h, applyNullable],
    fun v h => by simp [patchRow, h, applyNullable],
    fun h => by simp [patchRow, h, applyRequired],
    fun v h => by simp [patchRow, h, applyRequired],
    fun h => by simp [patchRow, h, applyRequired],
    fun v h => by simp [patchRow, h, applyRequired],
    fun h => by simp [patchRow, h, applyNullable],
    fun h => by simp [patchRow, h, applyNullable],
    fun v h => by simp [patchRow, h, applyNullable],
    ?_⟩
  intro u hu hne
  have h2 : (update_task db task_id p now true).2 =
      db.map (fun u => if u.id == task_id then patchRow t p now else u) := by
    simp [update_task, hfound, hnn]
  rw [h2]
  refine List.mem_map.2 ⟨u, hu, ?_⟩
  simp [hne]

/-- Witness for C2: updating only the status of a stored task keeps its
title and leaves the other row alone. -/
theorem update_task_frame_witness :
    get_task_by_id [sampleTask] 1 = some sampleTask ∧
    notNullViolated { status := Patch.set StatusEnum.completed } = false ∧
    (update_task [sampleTask] 1
        { status := Patch.set StatusEnum.completed } 7 true).1 =
      Except.ok (some (patchRow sampleTask
        { status := Patch.set StatusEnum.completed } 7)) := by
  refine ⟨by decide, by decide, ?_⟩
  exact (update_task_frame [sampleTask] 1
    { status := Patch.set StatusEnum.completed } 7 sampleTask
    (by decide) (by decide)).1

/-- C10: mark_task_as_completed is exactly update_task with the payload
whose only set field is status, set to completed: identical on every
input, and on an existing id it returns the task with status completed,
updated_at refreshed and every other field unchanged; on a missing id it
returns the same None as update_task. -/
theorem mark_completed_is_status_update (db : List Task) (task_id now : Nat)
    (cok : Bool) :
    mark_task_as_completed db task_id now cok =
      update_task db task_id { status := Patch.set StatusEnum.completed }
        now cok ∧
    (∀ t, get_task_by_id db task_id = some t →
      (mark_task_as_completed db task_id now true).1 =
        Except.ok (some { t with status := StatusEnum.completed,
                                 updated_at := now })) ∧
    (get_task_by_id db task_id = none →
      mark_task_as_completed db task_id now cok = (Except.ok none, db)) := by
  refine ⟨rfl, ?_, ?_⟩
  · intro t h
    simp [mark_task_as_completed, update_task, completedPatch, h,
      notNullViolated, patchRow, applyRequired, applyNullable]
  · intro h
    simp [mark_task_as_completed, update_task, completedPatch, h]

/-- Witness for C10 on a one-row store. -/
theorem mark_completed_is_status_update_witness :
    get_task_by_id [sampleTask2] 1 = some sampleTask2 ∧
    (mark_task_as_completed [sampleTask2] 1 6 true).1 =
      Except.ok (some { sampleTask2 with status := StatusEnum.completed,
                                         updated_at := 6 }) := by
  refine ⟨by decide, ?_⟩
  exact (mark_completed_is_status_update [sampleTask2] 1 6 true).2.1
    sampleTask2 (by decide)

/-- C7: when the commit of a create, update or delete unit of work raises a
persistence exception, the store is left unchanged and the same exception
is re-raised to the caller (not swallowed). -/
theorem rollback_on_persistence_failure (db : List Task)
    (p : TaskCreatePayload) (newId now task_id : Nat)
    (up : TaskUpdatePayload)
    (hex : (get_task_by_id db task_id).isSome = true)
    (hnn : notNullViolated up = false) :
    create_task db p newId now false =
      (Except.error DBError.commitFailure, db) ∧
    update_task db task_id up now false =
      (Except.error DBError.commitFailure, db) ∧
    delete_task db task_id false =
      (Except.error DBError.commitFailure, db) := by
  obtain ⟨t, ht⟩ := Option.isSome_iff_exists.mp hex
  exact ⟨rfl, by simp [update_task, ht, hnn], by simp [delete_task, ht]⟩

/-- Witness for C7 on a one-row store. -/
theorem rollback_on_persistence_failure_witness :
    (get_task_by_id [sampleTask2] 1).isSome = true ∧
    notNullViolated { title := Patch.set "xyz" } = false ∧
    update_task [sampleTask2] 1 { title := Patch.set "xyz" } 6 false =
      (Except.error DBError.commitFailure, [sampleTask2]) := by
  refine ⟨by decide, by decide, ?_⟩
  exact (rollback_on_persistence_failure [sampleTask2] { title := "t1" } 9 6 1
    { title := Patch.set "xyz" } (by decide) (by decide)).2.1

/-- Monotonicity of the time bound on stored stamps. -/
theorem stampsLE_mono (db : List Task) (T T2 : Nat) (h : stampsLE db T)
    (hT : T ≤ T2) : stampsLE db T2 := by
  intro t ht
  exact ⟨Nat.le_trans (h t ht).1 hT, Nat.le_trans (h t ht).2 hT⟩

/-- Creating a row preserves the timestamp invariant: the new row carries
created_at and updated_at both equal to now. -/
theorem create_task_stamps (db : List Task) (p : TaskCreatePayload)
    (newId now : Nat) (cok : Bool) (hord : stampsOrdered db)
    (hle : stampsLE db now) :
    stampsOrdered (create_task db p newId now cok).2 ∧
      stampsLE (create_task db p newId now cok).2 now := by
  cases cok with
  | false => exact ⟨hord, hle⟩
  | true =>
      constructor
      · intro t ht
        rcases List.mem_append.mp ht with h | h
        · exact hord t h
        · simp only [List.mem_singleton] at h
          subst h
          exact Nat.le_refl now
      · intro t ht
        rcases List.mem_append.mp ht with h | h
        · exact hle t h
        · simp only [List.mem_singleton] at h
          subst h
          exact ⟨Nat.le_refl now, Nat.le_refl now⟩

/-- Updating a row preserves the timestamp invariant: created_at is kept
and updated_at becomes now. -/
theorem update_task_stamps (db : List Task) (task_id : Nat)
    (p : TaskUpdatePayload) (now : Nat) (cok : Bool)
    (hord : stampsOrdered db) (hle : stampsLE db now) :
    stampsOrdered (update_task db task_id p now cok).2 ∧
      stampsLE (update_task db task_id p now cok).2 now := by
  cases hf : get_task_by_id db task_id with
  | none =>
      simp only [update_task, hf]
      exact ⟨hord, hle⟩
  | some t =>
      have htdb : t ∈ db := List.mem_of_find?_eq_some hf
      simp only [update_task, hf]
      by_cases hnn : notNullViolated p = true
      · simp only [hnn, if_true]
        exact ⟨hord, hle⟩
      · simp only [Bool.not_eq_true] at hnn
        simp only [hnn, Bool.false_eq_true, if_false]
        cases cok with
        | false => exact ⟨hord, hle⟩
        | true =>
            simp only [if_true]
            constructor
            · intro u hu
              rcases List.mem_map.mp hu with ⟨v, hv, hveq⟩
              by_cases hid : (v.id == task_id) = true
              · rw [if_pos hid] at hveq
                subst hveq
                exact (hle t htdb).1
              · rw [if_neg hid] at hveq
                subst hveq
                exact hord v hv
            · intro u hu
              rcases List.mem_map.mp hu with ⟨v, hv, hveq⟩
              by_cases hid : (v.id == task_id) = true
              · rw [if_pos hid] at hveq
                subst hveq
                exact ⟨(hle t htdb).1, Nat.le_refl now⟩
              · rw [if_neg hid] at hveq
                subst hveq
                exact hle v hv

/-- Deleting a row preserves the timestamp invariant. -/
theorem delete_task_stamps (db : List Task) (task_id : Nat) (cok : Bool)
    (now : Nat) (hord : stampsOrdered db) (hle : stampsLE db now) :
    stampsOrdered (delete_task db task_id cok).2 ∧
      stampsLE (delete_task db task_id cok).2 now := by
  cases hf : get_task_by_id db task_id with
  | none =>
      simp only [delete_task, hf]
      exact ⟨hord, hle⟩
  | some t =>
      simp only [delete_task, hf]
      cases cok with
      | false => exact ⟨hord, hle⟩
      | true =>
          simp only [if_true]
          exact ⟨fun u hu => hord u (List.mem_filter.mp hu).1,
                 fun u hu => hle u (List.mem_filter.mp hu).1⟩

/-- Every single operation executed at time now preserves the timestamp
invariant when the store's stamps are in the past of now. -/
theorem runOp_stamps (db : List Task) (op : Op) (now : Nat) (cok : Bool)
    (hord : stampsOrdered db) (hle : stampsLE db now) :
    stampsOrdered (runOp db op now cok) ∧ stampsLE (runOp db op now cok) now := by
  cases op with
  | createOp p newId => exact create_task_stamps db p newId now cok hord hle
  | updateOp task_id p => exact update_task_stamps db task_id p now cok hord hle
  | deleteOp task_id => exact delete_task_stamps db task_id cok now hord hle
  | completeOp task_id =>
      exact update_task_stamps db task_id completedPatch now cok hord hle

/-- Along any trace whose operation times never decrease and start no
earlier than every stamp already stored, the timestamp invariant holds of
the final store. -/
theorem runTrace_stamps (tr : List (Op × Nat × Bool)) :
    ∀ (db : List Task) (T : Nat), stampsOrdered db → stampsLE db T →
      (∀ s ∈ tr, T ≤ s.2.1) → timesMonotone tr →
      stampsOrdered (runTrace db tr) := by
  induction tr with
  | nil =>
      intro db T hord _ _ _
      exact hord
  | cons s rest ih =>
      intro db T hord hle hfirst hmono
      have hTs : T ≤ s.2.1 := hfirst s (List.mem_cons_self s rest)
      have hle2 : stampsLE db s.2.1 := stampsLE_mono db T s.2.1 hle hTs
      obtain ⟨ho2, hl2⟩ := runOp_stamps db s.1 s.2.1 s.2.2 hord hle2
      obtain ⟨hrest, hmono2⟩ := List.pairwise_cons.mp hmono
      exact ih (runOp db s.1 s.2.1 s.2.2) s.2.1 ho2 hl2 hrest hmono2

/-- C8: starting from an empty store, any sequence of create, update,
delete and mark-completed operations executed at nondecreasing times keeps
updated_at at or after created_at for every stored task; moreover a
successful create returns a row with created_at equal to updated_at, and a
successful update at a time not before the row's creation returns a row
with updated_at at or after created_at. -/
theorem timestamps_invariant (db : List Task) (p : TaskCreatePayload)
    (newId now task_id : Nat) (up : TaskUpdatePayload) (t : Task)
    (tr : List (Op × Nat × Bool)) (hmono : timesMonotone tr) :
    (∀ r db2, create_task db p newId now true = (Except.ok r, db2) →
      r.created_at = r.updated_at) ∧
    stampsOrdered (runTrace [] tr) ∧
    (∀ t2 db2, get_task_by_id db task_id = some t → t.created_at ≤ now →
      update_task db task_id up now true = (Except.ok (some t2), db2) →
      t2.created_at ≤ t2.updated_at) := by
  refine ⟨?_, ?_, ?_⟩
  · intro r db2 h
    simp only [create_task, if_true, Prod.mk.injEq, Except.ok.injEq] at h
    rw [← h.1]
  · exact runTrace_stamps tr [] 0 (fun t ht => by cases ht)
      (fun t ht => by cases ht) (fun s _ => Nat.zero_le s.2.1) hmono
  · intro t2 db2 hf hle hu
    simp only [update_task, hf] at hu
    by_cases hnn : notNullViolated up = true
    · simp [hnn] at hu
    · simp only [Bool.not_eq_true] at hnn
      simp only [hnn, Bool.false_eq_true, if_false, if_true, Prod.mk.injEq,
        Except.ok.injEq, Option.some.injEq] at hu
      rw [← hu.1]
      exact hle

/-- Witness for C8: a create at time 3 followed by a mark-completed at
time 5 satisfies the invariant. -/
theorem timestamps_invariant_witness :
    timesMonotone
      [(Op.createOp { title := "abc" } 1, 3, true), (Op.completeOp 1, 5, true)] ∧
    stampsOrdered (runTrace []
      [(Op.createOp { title := "abc" } 1, 3, true), (Op.completeOp 1, 5, true)]) := by
  have hmono : timesMonotone
      [(Op.createOp { title := "abc" } 1, 3, true), (Op.completeOp 1, 5, true)] := by
    simp [timesMonotone, List.pairwise_cons]
  have h := timestamps_invariant [] { title := "abc" } 1 3 1 { } sampleTask2
    [(Op.createOp { title := "abc" } 1, 3, true), (Op.completeOp 1, 5, true)]
    hmono
  exact ⟨hmono, h.2.1⟩

/-- The head of what dropWhile leaves does not satisfy the predicate. -/
theorem dropWhile_head?_false {α : Type} (p : α → Bool) (l : List α) (a : α)
    (h : (l.dropWhile p).head? = some a) : p a = false := by
  induction l with
  | nil => simp at h
  | cons x xs ih =>
      rw [List.dropWhile_cons] at h
      by_cases hx : p x = true
      · rw [if_pos hx] at h
        exact ih h
      · rw [if_neg hx, List.head?_cons] at h
        injection h with h2
        subst h2
        simpa using hx

/-- dropWhile is the identity when the head does not satisfy the
predicate. -/
theorem dropWhile_eq_self_of_head? {α : Type} (p : α → Bool) (l : List α)
    (h : ∀ a, l.head? = some a → p a = false) : l.dropWhile p = l := by
  cases l with
  | nil => rfl
  | cons x xs =>
      rw [List.dropWhile_cons, if_neg]
      simp [h x rfl]

/-- A nonempty initial segment starts with the head of the longer list. -/
theorem head?_of_longer {α : Type} (R A : List α) (hpre : R <+: A) (a : α)
    (h : R.head? = some a) : A.head? = some a := by
  obtain ⟨t, ht⟩ := hpre
  subst ht
  cases R with
  | nil => simp at h
  | cons x xs => simpa using h

/-- Stripping both ends is idempotent. -/
theorem stripEnds_idem {α : Type} (p : α → Bool) (l : List α) :
    stripEnds p (stripEnds p l) = stripEnds p l := by
  unfold stripEnds
  have hA : ∀ a, (l.dropWhile p).head? = some a → p a = false :=
    fun a h => dropWhile_head?_false p l a h
  have hB : ∀ b, ((l.dropWhile p).reverse.dropWhile p).head? = some b →
      p b = false :=
    fun b h => dropWhile_head?_false p (l.dropWhile p).reverse b h
  have hRA : ((l.dropWhile p).reverse.dropWhile p).reverse <+: l.dropWhile p := by
    have h1 : (l.dropWhile p).reverse.dropWhile p <:+ (l.dropWhile p).reverse :=
      List.dropWhile_suffix p
    have h2 : ((l.dropWhile p).reverse.dropWhile p).reverse.reverse <:+
        (l.dropWhile p).reverse := by
      rwa [List.reverse_reverse]
    exact List.reverse_suffix.mp h2
  have hRdrop :
      (((l.dropWhile p).reverse.dropWhile p).reverse).dropWhile p =
        ((l.dropWhile p).reverse.dropWhile p).reverse :=
    dropWhile_eq_self_of_head? p _
      (fun a ha => hA a (head?_of_longer _ _ hRA a ha))
  rw [hRdrop, List.reverse_reverse,
    dropWhile_eq_self_of_head? p _ hB]

/-- Python strip is idempotent. -/
theorem pyStrip_idem (s : String) : pyStrip (pyStrip s) = pyStrip s := by
  show String.mk (stripEnds Char.isWhitespace
      (String.mk (stripEnds Char.isWhitespace s.data)).data) =
    String.mk (stripEnds Char.isWhitespace s.data)
  rw [show (String.mk (stripEnds Char.isWhitespace s.data)).data =
      stripEnds Char.isWhitespace s.data from rfl]
  rw [stripEnds_idem]


theorem validateTaskCreate_ok_iff (p : TaskCreatePayload) :
    exceptAccepted (validateTaskCreate p) = true ↔
      (3 ≤ p.title.length ∧ p.title.length ≤ 200 ∧ pyStrip p.title ≠ "" ∧
        ∀ d, p.description = some d → d.length ≤ 1000) := by
  by_cases h3 : p.title.length < 3
  · simp only [validateTaskCreate, checkTitleLength, if_pos h3, bind,
      Except.bind, exceptAccepted]
    constructor
    · intro h
      cases h
    · rintro ⟨ha, -⟩
      omega
  · by_cases h200 : p.title.length > 200
    · simp only [validateTaskCreate, checkTitleLength, if_neg h3,
        if_pos h200, bind, Except.bind, exceptAccepted]
      constructor
      · intro h
        cases h
      · rintro ⟨-, hb, -⟩
        omega
    · by_cases hemp : pyStrip p.title = ""
      · simp [validateTaskCreate, checkTitleLength, validate_title, h3, h200,
          hemp, bind, Except.bind, exceptAccepted]
      · have he1 : p.title ≠ "" := by
          intro he
          rw [he] at h3
          simp at h3
        cases hd : p.description with
        | none =>
            simp [validateTaskCreate, checkTitleLength, validate_title, h3,
              h200, he1, hemp, hd, bind, Except.bind, exceptAccepted, pure,
              Except.pure]
            omega
        | some s =>
            by_cases hds : s.length > 1000
            · simp [validateTaskCreate, checkTitleLength, validate_title, h3,
                h200, he1, hemp, hd, hds, bind, Except.bind, exceptAccepted,
                pure, Except.pure]
            · simp [validateTaskCreate, checkTitleLength, validate_title, h3,
                h200, he1, hemp, hd, hds, bind, Except.bind, exceptAccepted,
                pure, Except.pure]
              omega

theorem validateTaskCreate_ok_fields (p q : TaskCreatePayload)
    (h : validateTaskCreate p = Except.ok q) :
    q.title = pyStrip p.title ∧
    q.description = stripDescriptionValue p.description ∧
    q.priority = p.priority ∧ q.status = p.status ∧
    q.due_date = p.due_date := by
  by_cases h3 : p.title.length < 3
  · simp [validateTaskCreate, checkTitleLength, h3, bind, Except.bind] at h
  · by_cases h200 : p.title.length > 200
    · simp [validateTaskCreate, checkTitleLength, h3, h200, bind,
        Except.bind] at h
    · by_cases hemp : pyStrip p.title = ""
      · simp [validateTaskCreate, checkTitleLength, validate_title, h3, h200,
          hemp, bind, Except.bind] at h
      · have he1 : p.title ≠ "" := by
          intro he
          rw [he] at h3
          simp at h3
        cases hd : p.description with
        | none =>
            simp only [validateTaskCreate, checkTitleLength, validate_title,
              if_neg h3, if_neg h200, hd, bind, Except.bind, pure,
              Except.pure] at h
            rw [if_neg (by simp [he1, hemp])] at h
            injection h with h
            rw [← h]
            exact ⟨rfl, rfl, rfl, rfl, rfl⟩
        | some s =>
            by_cases hds : s.length > 1000
            · simp [validateTaskCreate, checkTitleLength, validate_title, h3,
                h200, he1, hemp, hd, hds, bind, Except.bind] at h
            · simp only [validateTaskCreate, checkTitleLength, validate_title,
                if_neg h3, if_neg h200, hd, if_neg hds, bind, Except.bind,
                pure, Except.pure] at h
              rw [if_neg (by simp [he1, hemp])] at h
              injection h with h
              rw [← h]
              exact ⟨rfl, rfl, rfl, rfl, rfl⟩

theorem validateTaskUpdate_desc_iff (u : TaskUpdatePayload) (t : Patch String)
    (hT : checkUpdateTitle u.title = Except.ok t) :
    exceptAccepted (validateTaskUpdate u) = true ↔
      (∀ v, u.description = Patch.set v → v.length ≤ 1000) := by
  cases hd : u.description with
  | set v =>
      by_cases hlen : v.length > 1000
      · simp [validateTaskUpdate, hT, checkUpdateDescription, hd, hlen, bind,
          Except.bind, exceptAccepted]
      · simp [validateTaskUpdate, hT, checkUpdateDescription, hd, hlen, bind,
          Except.bind, exceptAccepted]
        omega
  | unset =>
      simp [validateTaskUpdate, hT, checkUpdateDescription, hd, bind,
        Except.bind, exceptAccepted]
  | setNull =>
      simp [validateTaskUpdate, hT, checkUpdateDescription, hd, bind,
        Except.bind, exceptAccepted]

theorem validateTaskUpdate_ok_iff (u : TaskUpdatePayload) :
    exceptAccepted (validateTaskUpdate u) = true ↔
      ((∀ v, u.title = Patch.set v → 3 ≤ v.length ∧ v.length ≤ 200) ∧
       (∀ v, u.description = Patch.set v → v.length ≤ 1000)) := by
  cases ht : u.title with
  | set v =>
      by_cases h3 : v.length < 3
      · simp only [validateTaskUpdate, checkUpdateTitle, ht, if_pos h3, bind,
          Except.bind, exceptAccepted]
        constructor
        · intro h
          cases h
        · rintro ⟨hv, -⟩
          have := hv v rfl
          omega
      · by_cases h200 : v.length > 200
        · simp only [validateTaskUpdate, checkUpdateTitle, ht, if_neg h3,
            if_pos h200, bind, Except.bind, exceptAccepted]
          constructor
          · intro h
            cases h
          · rintro ⟨hv, -⟩
            have := hv v rfl
            omega
        · have hT : checkUpdateTitle u.title = Except.ok (Patch.set v) := by
            simp [checkUpdateTitle, ht, h3, h200]
          rw [validateTaskUpdate_desc_iff u (Patch.set v) hT]
          constructor
          · intro hdesc
            refine ⟨?_, ?_⟩
            · intro v2 hv2
              injection hv2 with hv2
              subst hv2
              omega
            · exact hdesc
          · intro h
            exact h.2
  | unset =>
      have hT : checkUpdateTitle u.title = Except.ok Patch.unset := by
        simp [checkUpdateTitle, ht]
      rw [validateTaskUpdate_desc_iff u Patch.unset hT]
      constructor
      · intro hdesc
        refine ⟨?_, hdesc⟩
        intro v2 hv2
        cases hv2
      · intro h
        exact h.2
  | setNull =>
      have hT : checkUpdateTitle u.title = Except.ok Patch.setNull := by
        simp [checkUpdateTitle, ht]
      rw [validateTaskUpdate_desc_iff u Patch.setNull hT]
      constructor
      · intro hdesc
        refine ⟨?_, hdesc⟩
        intro v2 hv2
        cases hv2
      · intro h
        exact h.2

theorem validateTaskUpdate_ok_eq (u q : TaskUpdatePayload)
    (h : validateTaskUpdate u = Except.ok q) : q = u := by
  have htOk : ∀ t, checkUpdateTitle u.title = Except.ok t → t = u.title := by
    intro t hT
    cases ht : u.title with
    | set v =>
        rw [ht] at hT
        simp only [checkUpdateTitle] at hT
        by_cases h3 : v.length < 3
        · rw [if_pos h3] at hT
          cases hT
        · rw [if_neg h3] at hT
          by_cases h200 : v.length > 200
          · rw [if_pos h200] at hT
            cases hT
          · rw [if_neg h200] at hT
            injection hT with hT
            rw [← hT]
    | unset =>
        rw [ht] at hT
        simp only [checkUpdateTitle] at hT
        injection hT with hT
        rw [← hT]
    | setNull =>
        rw [ht] at hT
        simp only [checkUpdateTitle] at hT
        injection hT with hT
        rw [← hT]
  have hdOk : ∀ d, checkUpdateDescription u.description = Except.ok d →
      d = u.description := by
    intro d hD
    cases hd : u.description with
    | set v =>
        rw [hd] at hD
        simp only [checkUpdateDescription] at hD
        by_cases hlen : v.length > 1000
        · rw [if_pos hlen] at hD
          cases hD
        · rw [if_neg hlen] at hD
          injection hD with hD
          rw [← hD]
    | unset =>
        rw [hd] at hD
        simp only [checkUpdateDescription] at hD
        injection hD with hD
        rw [← hD]
    | setNull =>
        rw [hd] at hD
        simp only [checkUpdateDescription] at hD
        injection hD with hD
        rw [← hD]
  cases hT : checkUpdateTitle u.title with
  | error e =>
      simp only [validateTaskUpdate, hT, bind, Except.bind] at h
      cases h
  | ok t =>
      cases hD : checkUpdateDescription u.description with
      | error e =>
          simp only [validateTaskUpdate, hT, hD, bind, Except.bind] at h
          cases h
      | ok d =>
          simp only [validateTaskUpdate, hT, hD, bind, Except.bind,
            Except.ok.injEq] at h
          rw [← h, htOk t hT, hdOk d hD]

theorem validation_amended :
    (∀ p : TaskCreatePayload,
      exceptAccepted (validateTaskCreate p) = true ↔
        (3 ≤ p.title.length ∧ p.title.length ≤ 200 ∧ pyStrip p.title ≠ "" ∧
          ∀ d, p.description = some d → d.length ≤ 1000)) ∧
    (∀ p q : TaskCreatePayload, validateTaskCreate p = Except.ok q →
      q.title = pyStrip p.title ∧
      q.description = stripDescriptionValue p.description) ∧
    (∀ u : TaskUpdatePayload,
      exceptAccepted (validateTaskUpdate u) = true ↔
        ((∀ v, u.title = Patch.set v → 3 ≤ v.length ∧ v.length ≤ 200) ∧
         (∀ v, u.description = Patch.set v → v.length ≤ 1000))) ∧
    (∀ u q : TaskUpdatePayload, validateTaskUpdate u = Except.ok q → q = u) :=
  ⟨validateTaskCreate_ok_iff,
   fun p q h => ⟨(validateTaskCreate_ok_fields p q h).1,
     (validateTaskCreate_ok_fields p q h).2.1⟩,
   validateTaskUpdate_ok_iff, validateTaskUpdate_ok_eq⟩

theorem validation_amended_witness :
    validateTaskCreate { title := " ab  " } = Except.ok { title := "ab" } ∧
    ({ title := "ab" } : TaskCreatePayload).title = pyStrip " ab  " := by
  have hval : validateTaskCreate { title := " ab  " } =
      Except.ok { title := "ab" } := by decide
  exact ⟨hval,
    (validation_amended.2.1 { title := " ab  " } { title := "ab" } hval).1⟩

theorem update_whitespace_title_accepted :
    validateTaskUpdate { title := Patch.set "   " } =
      Except.ok { title := Patch.set "   " } ∧
    pyStrip "   " = "" ∧ ("   ").length = 3 := by decide

theorem whitespace_title_reachable :
    validateTaskCreate { title := "abc" } = Except.ok { title := "abc" } ∧
    exceptAccepted (validateTaskUpdate { title := Patch.set "   " }) = true ∧
    (update_task (create_task [] { title := "abc" } 1 100 true).2 1
        { title := Patch.set "   " } 200 true).2 =
      [{ id := 1, title := "   ", description := none,
         priority := PriorityEnum.medium, status := StatusEnum.todo,
         created_at := 100, updated_at := 200, due_date := none }] ∧
    pyStrip "   " = "" := by decide

theorem title_invariant_amended :
    (∀ (db : List Task) (p q : TaskCreatePayload) (newId now : Nat)
        (r : Task) (db2 : List Task),
      validateTaskCreate p = Except.ok q →
      create_task db q newId now true = (Except.ok r, db2) →
      pyStrip r.title ≠ "" ∧ r.title ≠ "") ∧
    (∀ (db : List Task) (task_id now : Nat) (up : TaskUpdatePayload)
        (cok : Bool), up.title = Patch.setNull →
      (update_task db task_id up now cok).2 = db ∧
      ∀ t2, (update_task db task_id up now cok).1 ≠ Except.ok (some t2)) := by
  constructor
  · intro db p q newId now r db2 hval hcreate
    simp only [create_task, if_true, Prod.mk.injEq, Except.ok.injEq] at hcreate
    have hrt : r.title = q.title := by
      rw [← hcreate.1]
    have hq := validateTaskCreate_ok_fields p q hval
    have hacc : exceptAccepted (validateTaskCreate p) = true := by
      rw [hval]
      rfl
    have hne : pyStrip p.title ≠ "" :=
      ((validateTaskCreate_ok_iff p).mp hacc).2.2.1
    constructor
    · rw [hrt, hq.1, pyStrip_idem]
      exact hne
    · intro habs
      rw [hrt, hq.1] at habs
      rw [habs] at hne
      exact hne rfl
  · intro db task_id now up cok hset
    have hv : notNullViolated up = true := by
      simp [notNullViolated, hset]
    cases hf : get_task_by_id db task_id with
    | none =>
        simp only [update_task, hf]
        exact ⟨trivial, fun t2 h => by cases h⟩
    | some t =>
        simp only [update_task, hf, hv, if_true]
        exact ⟨trivial, fun t2 h => by cases h⟩

theorem title_invariant_amended_witness :
    ({ title := Patch.setNull } : TaskUpdatePayload).title = Patch.setNull ∧
    (update_task [sampleTask2] 1 { title := Patch.setNull } 6 true).2 =
      [sampleTask2] :=
  ⟨rfl, (title_invariant_amended.2 [sampleTask2] 1 6
    { title := Patch.setNull } true rfl).1⟩

end TaskManager
